import Mathlib

/-!
Shallow embedding of the `@juicyllama/typeorm` helper library
(`src/typeorm/Query.ts` and the free helpers of `TypeOrm.ts`, whose source is
embedded in the repository README).

Conventions of the embedding:
* JavaScript values that flow through the helpers are modelled by `JsVal`
  (strings, numbers, `undefined`).
* HTTP-query values (`string | string[]`) are modelled by `QueryVal`.
* TypeORM `FindOperator`s are modelled by the inductive `FindOp`.
* JavaScript objects used as where-clauses are modelled by insertion-ordered
  association lists `List (String × WhereVal)`; object spread is `objMerge`.
* Asynchronous repository calls that may reject are modelled as oracle
  functions returning `Except String _`, threading an abstract database
  state `σ`; a thrown error is `Except.error`.
-/

namespace JL

/-- A JavaScript value as it appears in the helpers: a string, a number, or
`undefined`. -/
inductive JsVal where
  | str (s : String)
  | num (n : Int)
  | undef
deriving DecidableEq, Repr

/-- A value of the loosely typed HTTP query object: `string | string[]`. -/
inductive QueryVal where
  | str (s : String)
  | arr (l : List String)
deriving DecidableEq, Repr

/-- TypeORM find operators used by `Query.ts` (`MoreThan`, `Like`, `And`, ...). -/
inductive FindOp where
  | moreThan (v : JsVal)
  | moreThanOrEqual (v : JsVal)
  | lessThan (v : JsVal)
  | lessThanOrEqual (v : JsVal)
  | equal (v : JsVal)
  | isNull
  | not (o : FindOp)
  | like (s : String)
  | and (ops : List FindOp)

/-- The value stored at a key of a where-clause object: a plain literal value
(equality semantics in TypeORM), a find operator, or a nested object used for
relation filters. -/
inductive WhereVal where
  | lit (v : QueryVal)
  | op (o : FindOp)
  | nested (fields : List (String × WhereVal))

/-- A where-clause object: insertion-ordered association list. -/
abbrev FindWhere := List (String × WhereVal)

/-- The result type of `buildWhere`:
`FindOptionsWhere<T>[] | FindOptionsWhere<T>`. -/
inductive BuildWhereResult where
  | single (w : FindWhere)
  | multi (ws : List FindWhere)

/-- Column metadata of the wrapped repository
(`repository.metadata.columns`). -/
structure Column where
  propertyName : String
  isPrimary : Bool := false
deriving DecidableEq, Repr

/-- The repository handle: the metadata the helpers read
(`tableName`, `columns`, relation property names). -/
structure Repo where
  tableName : String
  columns : List Column
  relations : List String
deriving DecidableEq, Repr

/-- `repository.metadata.columns.map(column => column.propertyName)`. -/
def columnNames (repo : Repo) : List String :=
  repo.columns.map Column.propertyName

/-- JavaScript `s.toUpperCase()` (ASCII, which covers the operator names
the helpers compare). Implemented over the character list so that concrete
instances evaluate. -/
def strToUpper (s : String) : String :=
  String.mk (s.data.map Char.toUpper)

/-- JavaScript `s.includes(c)` for a single character. -/
def strContainsChar (s : String) (c : Char) : Bool :=
  s.data.contains c

/-- Character-level splitter behind `splitChar` (accumulator holds the
current segment reversed). -/
def splitCharAux (c : Char) : List Char → List Char → List (List Char)
  | acc, [] => [acc.reverse]
  | acc, x :: xs =>
    if x = c then acc.reverse :: splitCharAux c [] xs else splitCharAux c (x :: acc) xs

/-- JavaScript `s.split(sep)` for a one-character separator (the helpers
split at `'.'` and `','`); agrees with `String.splitOn` for these inputs and
is structurally recursive so that concrete instances evaluate. -/
def splitChar (c : Char) (s : String) : List String :=
  (splitCharAux c [] s.data).map String.mk

/-- Helper for `splitStringByFirstColon`: the pieces before and after the
first colon, or `none` when there is no colon. -/
def splitFirstColonAux : List Char → Option (List Char × List Char)
  | [] => none
  | c :: rest =>
    if c = ':' then some ([], rest)
    else
      match splitFirstColonAux rest with
      | some (a, b) => some (c :: a, b)
      | none => none

/-- The free function `splitStringByFirstColon` from `Query.ts`: split at the
first `:`; when there is no colon the second component (`lookupValue`) is
`undefined`, modelled as `none`. -/
def splitStringByFirstColon (inputString : String) : String × Option String :=
  match splitFirstColonAux inputString.data with
  | some (a, b) => (String.mk a, some (String.mk b))
  | none => (inputString, none)

/-- Modelled from the external `@juicyllama/utils` package: the
`ComparisonOperator` enum whose keys (equal to their string values) are
`GT, GTE, LT, LTE, EQ, NE, IS, NNULL`. -/
inductive ComparisonOperator where
  | GT | GTE | LT | LTE | EQ | NE | IS | NNULL
deriving DecidableEq, Repr

/-- Modelled from the external `@juicyllama/utils` package:
`Enums.getKeyName(ComparisonOperator, s)` returns the enum key whose value is
`s`; since keys equal values this is a lookup of `s` among the key names. -/
def ComparisonOperator.ofKey? (s : String) : Option ComparisonOperator :=
  match s with
  | "GT" => some .GT
  | "GTE" => some .GTE
  | "LT" => some .LT
  | "LTE" => some .LTE
  | "EQ" => some .EQ
  | "NE" => some .NE
  | "IS" => some .IS
  | "NNULL" => some .NNULL
  | _ => none

/-- `lodash.castArray`: wrap a lone string into a one-element array. -/
def castArray : QueryVal → List String
  | .str s => [s]
  | .arr l => l

/-- The `undefined` / present split of `splitStringByFirstColon`'s second
component, as the value handed to the find-operator constructors. -/
def jsValOfLookup : Option String → JsVal
  | some s => .str s
  | none => .undef

namespace Query

/-- `Query.mapComparisonOperatorToTypeORMFindOperators`: the `switch` mapping
each comparison operator to a TypeORM find operator. The enum is exhaustive,
so the `default: throw` branch of the source is unreachable. -/
def mapComparisonOperatorToTypeORMFindOperators (op : ComparisonOperator) (value : JsVal) : FindOp :=
  match op with
  | .GT => .moreThan value
  | .GTE => .moreThanOrEqual value
  | .LT => .lessThan value
  | .LTE => .lessThanOrEqual value
  | .EQ => .equal value
  | .NE => .not (.equal value)
  | .IS => .isNull
  | .NNULL => .not .isNull

/-- One step of the `reduce` inside `buildWhere` that turns the strings of a
field's value into find operators. The values of the query are strings in
this model, so the source's `typeof currentValue !== 'string'` guard always
passes. `ComparisonOperator[currentValue.toUpperCase()]` followed by
`Enums.getKeyName` amounts to looking the whole value up among the enum keys,
because the enum's values equal its keys. -/
def fieldLookupReduceStep (memo : List FindOp) (currentValue : String) : List FindOp :=
  let split := splitStringByFirstColon currentValue
  let opKeyName : Option ComparisonOperator :=
    (ComparisonOperator.ofKey? (strToUpper split.1)).orElse
      fun _ => ComparisonOperator.ofKey? (strToUpper currentValue)
  match opKeyName with
  | some op => memo ++ [mapComparisonOperatorToTypeORMFindOperators op (jsValOfLookup split.2)]
  | none => memo

/-- The find operators recognised in a field's value:
`castArray(value).reduce(..., [])`. -/
def fieldLookupOps (value : QueryVal) : List FindOp :=
  (castArray value).foldl fieldLookupReduceStep []

end Query

/-- Object spread `{...base, [key]: v}`: overwrite the key in place when it is
present, append it otherwise. -/
def objSet (base : FindWhere) (k : String) (v : WhereVal) : FindWhere :=
  if base.any fun p => p.1 = k then
    base.map fun p => if p.1 = k then (k, v) else p
  else
    base ++ [(k, v)]

/-- Object spread `{...base, ...other}` for where-clause objects. -/
def objMerge (base : FindWhere) (other : FindWhere) : FindWhere :=
  other.foldl (fun acc p => objSet acc p.1 p.2) base

/-- The nested-object construction inside `createWhereRelations`:
`{k0: {k1: ... {klast: value}}}` for the dot-separated key segments. -/
def buildNestedWhere : List String → WhereVal → FindWhere
  | [], _ => []
  | [k], v => [(k, v)]
  | k :: rest, v => [(k, .nested (buildNestedWhere rest v))]

namespace Query

/-- `Query.createWhereRelations`: split the key at the dots and build the
nested where object, but only when the first segment names a declared
relation; otherwise return the empty object. -/
def createWhereRelations (keyString : String) (value : WhereVal) (relations : List String) : FindWhere :=
  let keys := splitChar '.' keyString
  if relations.contains (keys.headD "") then
    buildNestedWhere keys value
  else
    []

/-- One iteration of the `for (const [key, value] of entries)` loop of
`buildWhere`, folding the next query entry into `whereBase`. -/
def buildWhereEntryStep (repo : Repo) (whereBase : FindWhere) (entry : String × QueryVal) : FindWhere :=
  let key := entry.1
  let value := entry.2
  let isRelation := strContainsChar key '.'
  let k := if isRelation then (splitChar '.' key).headD "" else key
  if (columnNames repo).contains k || repo.relations.contains k then
    let fieldLookupWhere := fieldLookupOps value
    let queryValue : WhereVal :=
      if fieldLookupWhere.length = 1 then
        .op (fieldLookupWhere.headD .isNull)
      else if fieldLookupWhere.length > 0 then
        .op (.and fieldLookupWhere)
      else
        .lit value
    if isRelation then
      objMerge whereBase (createWhereRelations key queryValue repo.relations)
    else
      objSet whereBase key queryValue
  else
    whereBase

/-- The `whereBase` accumulated over `Object.entries(options.query ?? {})`. -/
def buildWhereBase (repo : Repo) (query : List (String × QueryVal)) : FindWhere :=
  query.foldl (buildWhereEntryStep repo) []

end Query

/-- JavaScript `.length` of a `string | string[]` value. -/
def jsLength : QueryVal → Nat
  | .str s => s.length
  | .arr l => l.length

/-- JavaScript `v[0]` of a `string | string[]` value: the first character as a
one-character string, or the first array element; `undefined` is `none`. -/
def jsIdx0 : QueryVal → Option String
  | .str s =>
    match s.data with
    | [] => none
    | c :: _ => some (String.mk [c])
  | .arr l => l.head?

/-- JavaScript falsiness of a `string | string[]` value: only the empty
string is falsy (arrays, even empty ones, are truthy). -/
def jsFalsyQ : QueryVal → Bool
  | .str s => s.data.isEmpty
  | .arr _ => false

/-- The search text: `Array.isArray(search) ? search.join(' ') : search || ''`. -/
def searchValueOf : QueryVal → String
  | .arr l => String.intercalate " " l
  | .str s => s

namespace Query

/-- The where object merged in for one search field inside the
`for (const search of options.search_fields)` loop. -/
def searchFieldClause (searchField : String) (searchValue : String) (relations : List String) : FindWhere :=
  let likeOp : WhereVal := .op (.like ("%" ++ searchValue ++ "%"))
  if strContainsChar searchField '.' then
    createWhereRelations searchField likeOp relations
  else
    [(searchField, likeOp)]

/-- `Query.buildWhere`. The unused `account_id`/`account_ids` options of the
source signature are never read by the body and are not modelled. The
deletions of `query.search` / `query.relations` when they equal the
one-element array `['undefined']` are modelled by recomputing the respective
lookups; the `relations` deletion has no effect on the returned value. -/
def buildWhere (repo : Repo) (query? : Option (List (String × QueryVal)))
    (search_fields : Option (List String)) : BuildWhereResult :=
  let whereBase := buildWhereBase repo (query?.getD [])
  let search0 := (query?.getD []).lookup "search"
  let search : Option QueryVal :=
    match search0 with
    | some v => if jsLength v = 1 && jsIdx0 v == some "undefined" then none else some v
    | none => none
  match search, search_fields with
  | some sv, some sf =>
    if jsFalsyQ sv then
      .single whereBase
    else
      let searchValue := searchValueOf sv
      .multi (sf.map fun s => objMerge whereBase (searchFieldClause s searchValue repo.relations))
  | _, _ => .single whereBase

end Query

/-- A `FindManyOptions` / `FindOneOptions` value as the helpers build it.
`none` models an absent (or `omitBy isNil`-removed) field. `order` is the
single-key order object `(column, direction)`. The `where` field is named
`whereC` because `where` is a Lean keyword. -/
structure FindManyOpts where
  take : Option Int := none
  skip : Option Int := none
  order : Option (String × String) := none
  select : Option (List String) := none
  relations : Option (List String) := none
  whereC : Option BuildWhereResult := none

/-- The loosely typed query object consumed by `Query.findOptions` /
`Query.findOneOptions` (`select` and `relations` are `string | string[]`). -/
structure FindQueryInput where
  select : Option QueryVal := none
  relations : Option QueryVal := none
  limit : Option Int := none
  offset : Option Int := none
  order_by : Option String := none
  order_by_type : Option String := none

/-- `select`/`relations` normalisation of the class methods:
a string is split at the commas, an array is kept. -/
def splitIfString : QueryVal → List String
  | .str s => splitChar ',' s
  | .arr l => l

namespace Query

/-- The class method `Query.findOptions`: defaults `take` to 20, `skip` to 0,
and the order, when no `order_by` is given, to the fallback column (or
`created_at`) descending. `omitBy isNil` drops the absent `select` /
`relations`, which are already `none` here. -/
def findOptions (query : FindQueryInput) (w : BuildWhereResult)
    (fallback_order_column : Option String) : FindManyOpts :=
  { take := some (query.limit.getD 20)
    skip := some (query.offset.getD 0)
    order := some (match query.order_by with
      | some ob => (ob, query.order_by_type.getD "ASC")
      | none => (fallback_order_column.getD "created_at", "DESC"))
    select := query.select.map splitIfString
    relations := query.relations.map splitIfString
    whereC := some w }

/-- The class method `Query.findOneOptions`. -/
def findOneOptions (query : FindQueryInput) (w : BuildWhereResult) : FindManyOpts :=
  { select := query.select.map splitIfString
    relations := query.relations.map splitIfString
    whereC := some w }

end Query

/-- The query object consumed by the free `findOptions` / `findOneOptions`
of `TypeOrm.ts`, whose `select` / `relations` are comma-separated strings. -/
structure FreeQueryInput where
  select : Option String := none
  relations : Option String := none
  limit : Option Int := none
  offset : Option Int := none
  order_by : Option String := none
  order_by_type : Option String := none

namespace TypeOrm

/-- The free function `findOptions` of `TypeOrm.ts`: note that when no
`order_by` is given the default sort column is used with direction `'ASC'`. -/
def findOptions (query : FreeQueryInput) (w : BuildWhereResult)
    (default_sort : String) : FindManyOpts :=
  { take := some (query.limit.getD 20)
    skip := some (query.offset.getD 0)
    order := some (match query.order_by with
      | some ob => (ob, query.order_by_type.getD "ASC")
      | none => (default_sort, "ASC"))
    select := query.select.map (splitChar ',')
    relations := query.relations.map (splitChar ',')
    whereC := some w }

/-- The free function `getPrimaryKey` of `TypeOrm.ts`: the property name of
the first primary column; throws `'Primary key not found'` when there is none
(or when the name is falsy). -/
def getPrimaryKey (repo : Repo) : Except String String :=
  match repo.columns.find? Column.isPrimary with
  | some c => if c.propertyName = "" then .error "Primary key not found" else .ok c.propertyName
  | none => .error "Primary key not found"

/-- The default where clause `{[getPrimaryKey(repository)]: MoreThan(0)}`. -/
def defaultWhere (pk : String) : BuildWhereResult :=
  .single [(pk, .op (.moreThan (.num 0)))]

/-- `handleEmptyOptions`: substitute the default options object when none is
given; `getPrimaryKey` may throw. -/
def handleEmptyOptions (repo : Repo) (options : Option FindManyOpts) : Except String FindManyOpts :=
  match options with
  | some o => .ok o
  | none =>
    match getPrimaryKey repo with
    | .error e => .error e
    | .ok pk => .ok { whereC := some (defaultWhere pk), order := some ("created_at", "DESC") }

/-- `handleEmptyWhere`: fill in the default where clause when the options
exist but have no where. -/
def handleEmptyWhere (repo : Repo) (options : Option FindManyOpts) : Except String (Option FindManyOpts) :=
  match options with
  | none => .ok none
  | some o =>
    match o.whereC with
    | some _ => .ok (some o)
    | none =>
      match getPrimaryKey repo with
      | .error e => .error e
      | .ok pk => .ok (some { o with whereC := some (defaultWhere pk) })

/-- `handleEmptyRelations`: default the relations to all declared relation
property names. -/
def handleEmptyRelations (repo : Repo) (options : FindManyOpts) : FindManyOpts :=
  match options.relations with
  | some _ => options
  | none => { options with relations := some repo.relations }

/-- `filterOutInvalidSelectValues`: when a select list is present keep
exactly the entries naming declared columns. The entries are strings in this
model, so the source's `typeof select === 'string'` conjunct always holds. -/
def filterOutInvalidSelectValues (repo : Repo) (options : FindManyOpts) : FindManyOpts :=
  match options.select with
  | some l => { options with select := some (l.filter fun s => (columnNames repo).contains s) }
  | none => options

/-- `findAllOptionsWrapper`: the chain
`handleEmptyOptions → handleEmptyWhere → handleEmptyRelations →
filterOutInvalidSelectValues`. -/
def findAllOptionsWrapper (repo : Repo) (options : Option FindManyOpts) : Except String FindManyOpts :=
  match handleEmptyOptions repo options with
  | .error e => .error e
  | .ok o1 =>
    match handleEmptyWhere repo (some o1) with
    | .error e => .error e
    | .ok o2 => .ok (filterOutInvalidSelectValues repo (handleEmptyRelations repo (o2.getD {})))

/-- `findOneOptionsWrapper`: the same chain without `handleEmptyWhere`. -/
def findOneOptionsWrapper (repo : Repo) (options : Option FindManyOpts) : Except String FindManyOpts :=
  match handleEmptyOptions repo options with
  | .error e => .error e
  | .ok o1 => .ok (filterOutInvalidSelectValues repo (handleEmptyRelations repo o1))

end TypeOrm

namespace Query

/-- `Query.findAll`: normalise the options through `findAllOptionsWrapper`
and pass them to the repository's `find` (the oracle `find`). -/
def findAll (find : FindManyOpts → List β) (repo : Repo)
    (options : Option FindManyOpts) : Except String (List β) :=
  match TypeOrm.findAllOptionsWrapper repo options with
  | .error e => .error e
  | .ok o => .ok (find o)

/-- `Query.count`: normalise the options and pass them to the repository's
`count` (the oracle `cnt`). -/
def count (cnt : FindManyOpts → Nat) (repo : Repo)
    (options : Option FindManyOpts) : Except String Nat :=
  match TypeOrm.findAllOptionsWrapper repo options with
  | .error e => .error e
  | .ok o => .ok (cnt o)

/-- `Query.sum`: normalise the options and run the aggregate query over the
normalised where clause (the oracle `exec`); the SQL text built from `metric`
and the 2-decimal rounding of the driver result are not modelled. -/
def sum (exec : Option BuildWhereResult → Int) (repo : Repo) (metric : String)
    (options : Option FindManyOpts) : Except String Int :=
  let _ := metric
  match TypeOrm.findAllOptionsWrapper repo options with
  | .error e => .error e
  | .ok o => .ok (exec o.whereC)

/-- `Query.avg`: same shape as `Query.sum` with the `AVG` aggregate. -/
def avg (exec : Option BuildWhereResult → Int) (repo : Repo) (metric : String)
    (options : Option FindManyOpts) : Except String Int :=
  let _ := metric
  match TypeOrm.findAllOptionsWrapper repo options with
  | .error e => .error e
  | .ok o => .ok (exec o.whereC)

/-- The class method `Query.getPrimaryKey` (same lookup as the free helper,
but throwing `'no primary key was found'`). -/
def getPrimaryKey (repo : Repo) : Except String String :=
  match repo.columns.find? Column.isPrimary with
  | some c => if c.propertyName = "" then .error "no primary key was found" else .ok c.propertyName
  | none => .error "no primary key was found"

end Query

/-- A record payload: the JavaScript object handed to `create`/`update`,
modelled as an association list from property names to values. -/
abbrev RecordData := List (String × JsVal)

/-- JavaScript falsiness of the looked-up primary-key value
(`!recordId` in `Query.update`). -/
def jsFalsy : Option JsVal → Bool
  | none => true
  | some .undef => true
  | some (.str s) => s.data.isEmpty
  | some (.num n) => n = 0

namespace Query

/-- `Query.update`. The oracles model the repository round-trips:
`save` persists the payload against the database state `σ` (and may reject);
`findById` is the `findOneById` re-fetch. The result is paired with the
database state after the call; when the primary key is missing the error is
thrown before any repository write, so the state is returned unchanged. The
`catch` of the source only logs and rethrows the same error. -/
def update (save : σ → RecordData → Except String (σ × β))
    (findById : σ → JsVal → Except String (Option γ))
    (repo : Repo) (data : RecordData) (s : σ) : Except String γ × σ :=
  match getPrimaryKey repo with
  | .error e => (.error e, s)
  | .ok pk =>
    let recordId := data.lookup pk
    if jsFalsy recordId then
      (.error ("Primary key " ++ pk ++ " missing from update to " ++ repo.tableName), s)
    else
      match save s data with
      | .error e => (.error e, s)
      | .ok (s', _) =>
        match findById s' (recordId.getD .undef) with
        | .error e => (.error e, s')
        | .ok none =>
          (.error ("Updated record " ++ repo.tableName ++ " with id not found"), s')
        | .ok (some rec) => (.ok rec, s')

end Query

/-- `BulkUploadResponse` from `common.ts`. `errors` is optional: the create
and upsert passes initialise it to `[]`, the delete pass leaves it absent
until the first error (`errors ??= []`). -/
structure BulkUploadResponse where
  total : Nat
  processed : Nat
  created : Nat
  updated : Nat
  deleted : Nat
  errored : Nat
  errors : Option (List String) := none
  ids : List JsVal
deriving DecidableEq, Repr

/-- Append an error message, initialising the list when absent
(`errors ??= []; errors.push(msg)`). -/
def pushError (errors : Option (List String)) (msg : String) : Option (List String) :=
  some (errors.getD [] ++ [msg])

/-- `ImportMode` from `common.ts`. -/
inductive ImportMode where
  | CREATE | UPSERT | DELETE | REPOPULATE
deriving DecidableEq, Repr

namespace Query

/-- The body of `createBulkRecords`' `for (const record of data)` loop:
try `this.create` then push `entity[getPrimaryKey(repository)]` (the oracle
`pkOf`, which models the property read and may itself throw inside the same
`try`); a caught error increments `errored` and appends the message;
`processed` is incremented either way and the loop continues. -/
def createBulkGo (create : σ → ρ → Except String (σ × β))
    (pkOf : β → Except String JsVal) :
    σ → BulkUploadResponse → List ρ → σ × BulkUploadResponse
  | s, result, [] => (s, result)
  | s, result, record :: rest =>
    match create s record with
    | .ok (s', entity) =>
      match pkOf entity with
      | .ok pk =>
        createBulkGo create pkOf s'
          { result with ids := result.ids ++ [pk], created := result.created + 1,
                        processed := result.processed + 1 } rest
      | .error e =>
        createBulkGo create pkOf s'
          { result with errored := result.errored + 1, errors := pushError result.errors e,
                        processed := result.processed + 1 } rest
    | .error e =>
      createBulkGo create pkOf s
        { result with errored := result.errored + 1, errors := pushError result.errors e,
                      processed := result.processed + 1 } rest

/-- `Query.createBulkRecords`: sequential per-record insertion with error
accumulation. -/
def createBulkRecords (create : σ → ρ → Except String (σ × β))
    (pkOf : β → Except String JsVal) (s : σ) (data : List ρ) : σ × BulkUploadResponse :=
  createBulkGo create pkOf s
    { total := data.length, processed := 0, created := 0, updated := 0, deleted := 0,
      errored := 0, errors := some [], ids := [] } data

/-- The body of `upsertBulkRecords`' loop, in the source's order: find by
the dedup field, upsert, increment `updated`/`created` by whether the lookup
found a row, and only then read
`res.identifiers[0][this.getPrimaryKey(repository).toString()]` (the fallible
`idOf`, still inside the same `try`: `getPrimaryKey` throws on a table with
no primary column and `identifiers[0]` can be `undefined`). A throw from
that read is caught after the counter increment, so such a row is counted
both as created/updated and as errored. -/
def upsertBulkGo (findOne : σ → ρ → Except String (σ × Option γ))
    (upsertFn : σ → ρ → Except String (σ × δ))
    (idOf : δ → Except String JsVal) :
    σ → BulkUploadResponse → List ρ → σ × BulkUploadResponse
  | s, result, [] => (s, result)
  | s, result, record :: rest =>
    match findOne s record with
    | .error e =>
      upsertBulkGo findOne upsertFn idOf s
        { result with errored := result.errored + 1, errors := pushError result.errors e,
                      processed := result.processed + 1 } rest
    | .ok (s1, found) =>
      match upsertFn s1 record with
      | .error e =>
        upsertBulkGo findOne upsertFn idOf s1
          { result with errored := result.errored + 1, errors := pushError result.errors e,
                        processed := result.processed + 1 } rest
      | .ok (s2, res) =>
        let counted :=
          { result with
              created := result.created + (if found.isSome then 0 else 1),
              updated := result.updated + (if found.isSome then 1 else 0) }
        match idOf res with
        | .ok id =>
          upsertBulkGo findOne upsertFn idOf s2
            { counted with ids := counted.ids ++ [id],
                           processed := counted.processed + 1 } rest
        | .error e =>
          upsertBulkGo findOne upsertFn idOf s2
            { counted with errored := counted.errored + 1,
                           errors := pushError counted.errors e,
                           processed := counted.processed + 1 } rest

/-- `Query.upsertBulkRecords`. The `where` of the per-row lookup
(`{[dedup_field]: record[dedup_field]}`) is folded into the `findOne`
oracle; `upsertFn` returns the raw insert result and `idOf` models the
identifier extraction performed after the counter increments. -/
def upsertBulkRecords (findOne : σ → ρ → Except String (σ × Option γ))
    (upsertFn : σ → ρ → Except String (σ × δ))
    (idOf : δ → Except String JsVal) (s : σ) (data : List ρ) :
    σ × BulkUploadResponse :=
  upsertBulkGo findOne upsertFn idOf s
    { total := data.length, processed := 0, created := 0, updated := 0, deleted := 0,
      errored := 0, errors := some [], ids := [] } data

/-- The body of `deleteBulkRecords`' loop: find by the dedup field and purge
when found; a row without a match only counts as processed. -/
def deleteBulkGo (findOne : σ → ρ → Except String (σ × Option γ))
    (purge : σ → γ → Except String σ) :
    σ → BulkUploadResponse → List ρ → σ × BulkUploadResponse
  | s, result, [] => (s, result)
  | s, result, record :: rest =>
    match findOne s record with
    | .error e =>
      deleteBulkGo findOne purge s
        { result with errored := result.errored + 1, errors := pushError result.errors e,
                      processed := result.processed + 1 } rest
    | .ok (s1, none) =>
      deleteBulkGo findOne purge s1 { result with processed := result.processed + 1 } rest
    | .ok (s1, some r) =>
      match purge s1 r with
      | .ok s2 =>
        deleteBulkGo findOne purge s2
          { result with deleted := result.deleted + 1, processed := result.processed + 1 } rest
      | .error e =>
        deleteBulkGo findOne purge s1
          { result with errored := result.errored + 1, errors := pushError result.errors e,
                        processed := result.processed + 1 } rest

/-- `Query.deleteBulkRecords`. The `records` array the source fills from the
dedup values is never read afterwards (dead code) and is not modelled;
`errors` starts absent and is initialised on the first error. -/
def deleteBulkRecords (findOne : σ → ρ → Except String (σ × Option γ))
    (purge : σ → γ → Except String σ) (s : σ) (data : List ρ) : σ × BulkUploadResponse :=
  deleteBulkGo findOne purge s
    { total := data.length, processed := 0, created := 0, updated := 0, deleted := 0,
      errored := 0, errors := none, ids := [] } data

/-- `Query.bulk`: the mode dispatcher. The table operations of the
REPOPULATE branch are passed as state transformers (their concrete table
semantics is `TableState` below). `createBulkRecords` and `dropTable`
(`DROP TABLE IF EXISTS`) never throw, so the source's `catch`-and-
`restoreTable` branch and the trailing `if (!result) throw` are unreachable
and the snapshot copy is always dropped. -/
def bulk (create : σ → ρ → Except String (σ × β)) (pkOf : β → Except String JsVal)
    (findOne : σ → ρ → Except String (σ × Option γ))
    (upsertFn : σ → ρ → Except String (σ × δ))
    (idOf : δ → Except String JsVal)
    (purge : σ → γ → Except String σ)
    (copyTableOp truncateOp dropCopyOp : σ → σ)
    (import_mode : ImportMode) (dedup_field : Option String)
    (data : List ρ) (s : σ) : Except String BulkUploadResponse × σ :=
  match import_mode with
  | .CREATE =>
    let (s', r) := createBulkRecords create pkOf s data
    (.ok r, s')
  | .UPSERT =>
    match dedup_field with
    | none => (.error "Dedup field required for update", s)
    | some _ =>
      let (s', r) := upsertBulkRecords findOne upsertFn idOf s data
      (.ok r, s')
  | .DELETE =>
    match dedup_field with
    | none => (.error "Dedup field required for update", s)
    | some _ =>
      let (s', r) := deleteBulkRecords findOne purge s data
      (.ok r, s')
  | .REPOPULATE =>
    let s1 := copyTableOp s
    let s2 := truncateOp s1
    let (s3, r) := createBulkRecords create pkOf s2 data
    let s4 := dropCopyOp s3
    (.ok r, s4)

end Query

/-- The three tables `Query.ts` touches during REPOPULATE: the live table,
its `_COPY` snapshot and its `_DELETE` rename target. `none` means the table
does not exist. -/
structure TableState (ρ : Type) where
  live : List ρ
  copy : Option (List ρ) := none
  del : Option (List ρ) := none
deriving DecidableEq, Repr

namespace TableState

/-- `Query.copyTable` (default table name): `DROP TABLE IF EXISTS _COPY`,
`CREATE TABLE _COPY LIKE live`, `INSERT INTO _COPY SELECT * FROM live`. -/
def copyTable (s : TableState ρ) : TableState ρ :=
  let s1 := { s with copy := none }
  let s2 := { s1 with copy := some [] }
  { s2 with copy := some (s2.copy.getD [] ++ s2.live) }

/-- `Query.truncate`: `DELETE FROM live` (the `AUTO_INCREMENT = 1` reset has
no effect on contents and is not modelled). -/
def truncateTable (s : TableState ρ) : TableState ρ :=
  { s with live := [] }

/-- `Query.dropTable` applied to the `_COPY` table. -/
def dropCopyTable (s : TableState ρ) : TableState ρ :=
  { s with copy := none }

/-- `Query.restoreTable` (default table name): the atomic
`RENAME TABLE live TO _DELETE, _COPY TO live` — which fails when the `_COPY`
table does not exist — followed by `DROP TABLE IF EXISTS _DELETE`. -/
def restoreTable (s : TableState ρ) : Except String (TableState ρ) :=
  match s.copy with
  | none => .error ("Table '" ++ "_COPY' doesn't exist")
  | some c =>
    let renamed : TableState ρ := { live := c, copy := none, del := some s.live }
    .ok { renamed with del := none }

/-- A per-row insert oracle over `TableState`: `this.create` appends the row
to the live table when the row is accepted (`ok row = true`) and rejects with
`msg row` otherwise. -/
def insertOracle (ok : ρ → Bool) (msg : ρ → String) :
    TableState ρ → ρ → Except String (TableState ρ × ρ) :=
  fun s r => if ok r then .ok ({ s with live := s.live ++ [r] }, r) else .error (msg r)

end TableState

/-- `true` for a successful repository call. -/
def exceptIsOk : Except String β → Bool
  | .ok _ => true
  | .error _ => false

/-- The error message of a failed repository call. -/
def exceptErrorMsg? : Except String β → Option String
  | .ok _ => none
  | .error e => some e

/-- The value of a successful repository call. -/
def exceptOk? : Except String β → Option β
  | .ok b => some b
  | .error _ => none

/-- A concrete example repository used by the witnesses and counterexamples:
a `books` table with columns `id` (primary), `price`, `name` and a declared
relation `author`. -/
def repoEx : Repo :=
  { tableName := "books"
    columns := [{ propertyName := "id", isPrimary := true },
                { propertyName := "price" }, { propertyName := "name" }]
    relations := ["author"] }

/-- A trivial find oracle over an integer table state, for instantiating the
bulk dispatcher where the branch under study never calls it. -/
def exFindOracle : TableState Int → Int → Except String (TableState Int × Option Int) :=
  fun s _ => .ok (s, none)

/-- A trivial upsert oracle over an integer table state. -/
def exUpsertOracle : TableState Int → Int → Except String (TableState Int × JsVal) :=
  fun s _ => .ok (s, .num 0)

/-- A trivial purge oracle over an integer table state. -/
def exPurgeOracle : TableState Int → Int → Except String (TableState Int) :=
  fun s _ => .ok s

/-! ## Helper lemmas -/

theorem pushError_getD (errors : Option (List String)) (msg : String) :
    (pushError errors msg).getD [] = errors.getD [] ++ [msg] := rfl

theorem createBulkGo_inv (create : σ → ρ → Except String (σ × β))
    (pkOf : β → Except String JsVal) :
    ∀ (data : List ρ) (s : σ) (r : BulkUploadResponse),
      ((Query.createBulkGo create pkOf s r data).2).processed = r.processed + data.length ∧
      ((Query.createBulkGo create pkOf s r data).2).total = r.total ∧
      ((Query.createBulkGo create pkOf s r data).2).created
          + ((Query.createBulkGo create pkOf s r data).2).errored
        = r.created + r.errored + data.length ∧
      (((Query.createBulkGo create pkOf s r data).2).errors.getD []).length + r.errored
        = ((Query.createBulkGo create pkOf s r data).2).errored + (r.errors.getD []).length := by
  intro data
  induction data with
  | nil => intro s r; simp [Query.createBulkGo]; omega
  | cons record rest ih =>
    intro s r
    cases hc : create s record with
    | error e =>
      have h := ih s { r with errored := r.errored + 1, errors := pushError r.errors e,
                              processed := r.processed + 1 }
      simp only [Query.createBulkGo, hc, List.length_cons] at h ⊢
      simp only [pushError_getD, List.length_append, List.length_cons, List.length_nil] at h
      obtain ⟨h1, h2, h3, h4⟩ := h
      refine ⟨?_, ?_, ?_, ?_⟩ <;> omega
    | ok p =>
      obtain ⟨s', ent⟩ := p
      cases hp : pkOf ent with
      | ok pk =>
        have h := ih s' { r with ids := r.ids ++ [pk], created := r.created + 1,
                                 processed := r.processed + 1 }
        simp only [Query.createBulkGo, hc, hp, List.length_cons] at h ⊢
        obtain ⟨h1, h2, h3, h4⟩ := h
        refine ⟨?_, ?_, ?_, ?_⟩ <;> omega
      | error e =>
        have h := ih s' { r with errored := r.errored + 1, errors := pushError r.errors e,
                                 processed := r.processed + 1 }
        simp only [Query.createBulkGo, hc, hp, List.length_cons] at h ⊢
        simp only [pushError_getD, List.length_append, List.length_cons, List.length_nil] at h
        obtain ⟨h1, h2, h3, h4⟩ := h
        refine ⟨?_, ?_, ?_, ?_⟩ <;> omega

theorem upsertBulkGo_inv (findOne : σ → ρ → Except String (σ × Option γ))
    (upsertFn : σ → ρ → Except String (σ × δ)) (idOf : δ → Except String JsVal) :
    ∀ (data : List ρ) (s : σ) (r : BulkUploadResponse),
      ((Query.upsertBulkGo findOne upsertFn idOf s r data).2).processed
        = r.processed + data.length ∧
      ((Query.upsertBulkGo findOne upsertFn idOf s r data).2).total = r.total ∧
      (((Query.upsertBulkGo findOne upsertFn idOf s r data).2).errors.getD []).length + r.errored
        = ((Query.upsertBulkGo findOne upsertFn idOf s r data).2).errored
            + (r.errors.getD []).length := by
  intro data
  induction data with
  | nil => intro s r; simp [Query.upsertBulkGo]; omega
  | cons record rest ih =>
    intro s r
    cases hf : findOne s record with
    | error e =>
      have h := ih s { r with errored := r.errored + 1, errors := pushError r.errors e,
                              processed := r.processed + 1 }
      simp only [Query.upsertBulkGo, hf, List.length_cons] at h ⊢
      simp only [pushError_getD, List.length_append, List.length_cons, List.length_nil] at h
      obtain ⟨h1, h2, h3⟩ := h
      refine ⟨?_, ?_, ?_⟩ <;> omega
    | ok p =>
      obtain ⟨s1, found⟩ := p
      cases hu : upsertFn s1 record with
      | error e =>
        have h := ih s1 { r with errored := r.errored + 1, errors := pushError r.errors e,
                                 processed := r.processed + 1 }
        simp only [Query.upsertBulkGo, hf, hu, List.length_cons] at h ⊢
        simp only [pushError_getD, List.length_append, List.length_cons, List.length_nil] at h
        obtain ⟨h1, h2, h3⟩ := h
        refine ⟨?_, ?_, ?_⟩ <;> omega
      | ok q =>
        obtain ⟨s2, res⟩ := q
        cases hid : idOf res with
        | ok id =>
          have h := ih s2
            { r with created := r.created + (if found.isSome then 0 else 1),
                     updated := r.updated + (if found.isSome then 1 else 0),
                     ids := r.ids ++ [id],
                     processed := r.processed + 1 }
          simp only [Query.upsertBulkGo, hf, hu, hid, List.length_cons] at h ⊢
          obtain ⟨h1, h2, h3⟩ := h
          refine ⟨?_, ?_, ?_⟩ <;> omega
        | error e =>
          have h := ih s2
            { r with created := r.created + (if found.isSome then 0 else 1),
                     updated := r.updated + (if found.isSome then 1 else 0),
                     errored := r.errored + 1,
                     errors := pushError r.errors e,
                     processed := r.processed + 1 }
          simp only [Query.upsertBulkGo, hf, hu, hid, List.length_cons] at h ⊢
          simp only [pushError_getD, List.length_append, List.length_cons,
            List.length_nil] at h
          obtain ⟨h1, h2, h3⟩ := h
          refine ⟨?_, ?_, ?_⟩ <;> omega

theorem deleteBulkGo_inv (findOne : σ → ρ → Except String (σ × Option γ))
    (purge : σ → γ → Except String σ) :
    ∀ (data : List ρ) (s : σ) (r : BulkUploadResponse),
      ((Query.deleteBulkGo findOne purge s r data).2).processed = r.processed + data.length ∧
      ((Query.deleteBulkGo findOne purge s r data).2).total = r.total ∧
      (((Query.deleteBulkGo findOne purge s r data).2).errors.getD []).length + r.errored
        = ((Query.deleteBulkGo findOne purge s r data).2).errored + (r.errors.getD []).length := by
  intro data
  induction data with
  | nil => intro s r; simp [Query.deleteBulkGo]; omega
  | cons record rest ih =>
    intro s r
    cases hf : findOne s record with
    | error e =>
      have h := ih s { r with errored := r.errored + 1, errors := pushError r.errors e,
                              processed := r.processed + 1 }
      simp only [Query.deleteBulkGo, hf, List.length_cons] at h ⊢
      simp only [pushError_getD, List.length_append, List.length_cons, List.length_nil] at h
      obtain ⟨h1, h2, h3⟩ := h
      refine ⟨?_, ?_, ?_⟩ <;> omega
    | ok p =>
      obtain ⟨s1, found⟩ := p
      cases found with
      | none =>
        have h := ih s1 { r with processed := r.processed + 1 }
        simp only [Query.deleteBulkGo, hf, List.length_cons] at h ⊢
        obtain ⟨h1, h2, h3⟩ := h
        refine ⟨?_, ?_, ?_⟩ <;> omega
      | some rec =>
        cases hp : purge s1 rec with
        | ok s2 =>
          have h := ih s2 { r with deleted := r.deleted + 1, processed := r.processed + 1 }
          simp only [Query.deleteBulkGo, hf, hp, List.length_cons] at h ⊢
          obtain ⟨h1, h2, h3⟩ := h
          refine ⟨?_, ?_, ?_⟩ <;> omega
        | error e =>
          have h := ih s1 { r with errored := r.errored + 1, errors := pushError r.errors e,
                                   processed := r.processed + 1 }
          simp only [Query.deleteBulkGo, hf, hp, List.length_cons] at h ⊢
          simp only [pushError_getD, List.length_append, List.length_cons, List.length_nil] at h
          obtain ⟨h1, h2, h3⟩ := h
          refine ⟨?_, ?_, ?_⟩ <;> omega

theorem createBulkGo_pure (create : ρ → Except String β) (pkOf : β → JsVal) :
    ∀ (data : List ρ) (r : BulkUploadResponse) (l : List String), r.errors = some l →
      ((Query.createBulkGo (fun s x => (create x).map fun b => (s, b))
          (fun b => .ok (pkOf b)) () r data).2).total = r.total ∧
      ((Query.createBulkGo (fun s x => (create x).map fun b => (s, b))
          (fun b => .ok (pkOf b)) () r data).2).processed = r.processed + data.length ∧
      ((Query.createBulkGo (fun s x => (create x).map fun b => (s, b))
          (fun b => .ok (pkOf b)) () r data).2).created
        = r.created + (data.filter fun x => exceptIsOk (create x)).length ∧
      ((Query.createBulkGo (fun s x => (create x).map fun b => (s, b))
          (fun b => .ok (pkOf b)) () r data).2).errored
        = r.errored + (data.filter fun x => !exceptIsOk (create x)).length ∧
      ((Query.createBulkGo (fun s x => (create x).map fun b => (s, b))
          (fun b => .ok (pkOf b)) () r data).2).errors
        = some (l ++ (data.filterMap fun x => exceptErrorMsg? (create x))) := by
  intro data
  induction data with
  | nil => intro r l hr; simp [Query.createBulkGo, hr]
  | cons x rest ih =>
    intro r l hr
    cases hc : create x with
    | ok b =>
      have h := ih { r with ids := r.ids ++ [pkOf b], created := r.created + 1,
                            processed := r.processed + 1 } l (by simpa using hr)
      simp only [Query.createBulkGo, hc, Except.map, List.length_cons] at h ⊢
      simp [List.filter_cons, List.filterMap_cons, hc, exceptIsOk, exceptErrorMsg?] at h ⊢
      obtain ⟨h1, h2, h3, h4, h5⟩ := h
      refine ⟨by omega, by omega, by omega, by omega, by simpa using h5⟩
    | error e =>
      have h := ih { r with errored := r.errored + 1, errors := pushError r.errors e,
                            processed := r.processed + 1 } (l ++ [e])
          (by simp [pushError, hr])
      simp only [Query.createBulkGo, hc, Except.map, List.length_cons] at h ⊢
      simp [List.filter_cons, List.filterMap_cons, hc, exceptIsOk, exceptErrorMsg?] at h ⊢
      obtain ⟨h1, h2, h3, h4, h5⟩ := h
      refine ⟨by omega, by omega, by omega, by omega, by simpa [List.append_assoc] using h5⟩

theorem createBulkGo_insertOracle_state (okF : ρ → Bool) (msg : ρ → String)
    (pkOf : ρ → Except String JsVal) :
    ∀ (data : List ρ) (s : TableState ρ) (r : BulkUploadResponse),
      (Query.createBulkGo (TableState.insertOracle okF msg) pkOf s r data).1
        = { s with live := s.live ++ data.filter okF } := by
  intro data
  induction data with
  | nil => intro s r; simp [Query.createBulkGo]
  | cons x rest ih =>
    intro s r
    cases hok : okF x with
    | false =>
      simp [Query.createBulkGo, TableState.insertOracle, hok, List.filter_cons, ih]
    | true =>
      cases hp : pkOf x with
      | ok pk =>
        simp [Query.createBulkGo, TableState.insertOracle, hok, hp, List.filter_cons, ih,
          List.append_assoc]
      | error e =>
        simp [Query.createBulkGo, TableState.insertOracle, hok, hp, List.filter_cons, ih,
          List.append_assoc]

/-! ## Claim theorems -/

/-- **C1** (counterexample). The claim states that a REPOPULATE bulk import
whose create phase fails mid-way leaves the live table with exactly its
pre-call rows. Here the single row of the import fails to create: the
per-row failure is caught inside `createBulkRecords`, so the create phase
returns normally, the snapshot is dropped, and the call ends with the live
table empty — not equal to its pre-call contents `[1]`. -/
theorem c1_repopulate_cex :
    (Query.bulk (TableState.insertOracle (fun _ => false) (fun _ => "insert failed"))
        (fun r => Except.ok (JsVal.num r)) exFindOracle exUpsertOracle Except.ok exPurgeOracle
        TableState.copyTable TableState.truncateTable TableState.dropCopyTable
        ImportMode.REPOPULATE none [2] { live := [1], copy := none, del := none }).2.live
      ≠ ({ live := [1], copy := none, del := none } : TableState Int).live ∧
    (Query.bulk (TableState.insertOracle (fun _ => false) (fun _ => "insert failed"))
        (fun r => Except.ok (JsVal.num r)) exFindOracle exUpsertOracle Except.ok exPurgeOracle
        TableState.copyTable TableState.truncateTable TableState.dropCopyTable
        ImportMode.REPOPULATE none [2] { live := [1], copy := none, del := none }).1
      = Except.ok { total := 1, processed := 1, created := 0, updated := 0, deleted := 0,
                    errored := 1, errors := some ["insert failed"], ids := [] } := by
  exact ⟨by decide, rfl⟩

/-- **C1** (amended claim). A REPOPULATE bulk import whose rows fail
per-row does not restore anything: each failure is caught inside the create
phase, the snapshot copy is dropped, and the live table afterwards holds
exactly the successfully created rows. The snapshot-rename restore path
(`restoreTable`) runs only when the create phase itself throws, and from any
mid-create table state whose snapshot holds the pre-call rows it would
indeed put those rows back in the live table and drop the failed table. -/
theorem c1_repopulate_amended (okF : ρ → Bool) (msg : ρ → String)
    (pkOf : ρ → Except String JsVal)
    (findOne : TableState ρ → ρ → Except String (TableState ρ × Option γ))
    (upsertFn : TableState ρ → ρ → Except String (TableState ρ × δ))
    (idOf : δ → Except String JsVal)
    (purge : TableState ρ → γ → Except String (TableState ρ))
    (dedup : Option String) (data : List ρ) (s : TableState ρ) :
    (Query.bulk (TableState.insertOracle okF msg) pkOf findOne upsertFn idOf purge
        TableState.copyTable TableState.truncateTable TableState.dropCopyTable
        ImportMode.REPOPULATE dedup data s).2.live = data.filter okF ∧
    (Query.bulk (TableState.insertOracle okF msg) pkOf findOne upsertFn idOf purge
        TableState.copyTable TableState.truncateTable TableState.dropCopyTable
        ImportMode.REPOPULATE dedup data s).2.copy = none ∧
    (∀ (midLive snapshot : List ρ) (d : Option (List ρ)),
      TableState.restoreTable { live := midLive, copy := some snapshot, del := d }
        = Except.ok { live := snapshot, copy := none, del := none }) := by
  refine ⟨?_, ?_, ?_⟩
  · simp [Query.bulk, Query.createBulkRecords, TableState.copyTable, TableState.truncateTable,
      TableState.dropCopyTable, createBulkGo_insertOracle_state]
  · simp [Query.bulk, Query.createBulkRecords, TableState.copyTable, TableState.truncateTable,
      TableState.dropCopyTable, createBulkGo_insertOracle_state]
  · intro midLive snapshot d
    simp [TableState.restoreTable]

/-- **C2**. Bulk imports in CREATE, UPSERT and DELETE mode never abort
early: whatever the per-row repository outcomes — including an upsert whose
identifier extraction throws after its counter increment — every row is
processed (`processed = total = data.length`), and each caught per-row error
increments `errored` and appends exactly one message to `errors`. The
create and delete loops additionally account for every processed row in
their counters. -/
theorem c2_bulk_rows_never_abort
    (create : σ₁ → ρ₁ → Except String (σ₁ × β₁)) (pkOf : β₁ → Except String JsVal)
    (findOne : σ₂ → ρ₂ → Except String (σ₂ × Option γ₂))
    (upsertFn : σ₂ → ρ₂ → Except String (σ₂ × δ₂))
    (idOf : δ₂ → Except String JsVal)
    (findOneD : σ₃ → ρ₃ → Except String (σ₃ × Option γ₃))
    (purge : σ₃ → γ₃ → Except String σ₃)
    (s₁ : σ₁) (s₂ : σ₂) (s₃ : σ₃)
    (data₁ : List ρ₁) (data₂ : List ρ₂) (data₃ : List ρ₃) :
    (((Query.createBulkRecords create pkOf s₁ data₁).2).processed = data₁.length ∧
     ((Query.createBulkRecords create pkOf s₁ data₁).2).total = data₁.length ∧
     (((Query.createBulkRecords create pkOf s₁ data₁).2).errors.getD []).length
       = ((Query.createBulkRecords create pkOf s₁ data₁).2).errored ∧
     ((Query.createBulkRecords create pkOf s₁ data₁).2).created
         + ((Query.createBulkRecords create pkOf s₁ data₁).2).errored
       = data₁.length) ∧
    (((Query.upsertBulkRecords findOne upsertFn idOf s₂ data₂).2).processed = data₂.length ∧
     ((Query.upsertBulkRecords findOne upsertFn idOf s₂ data₂).2).total = data₂.length ∧
     (((Query.upsertBulkRecords findOne upsertFn idOf s₂ data₂).2).errors.getD []).length
       = ((Query.upsertBulkRecords findOne upsertFn idOf s₂ data₂).2).errored) ∧
    (((Query.deleteBulkRecords findOneD purge s₃ data₃).2).processed = data₃.length ∧
     ((Query.deleteBulkRecords findOneD purge s₃ data₃).2).total = data₃.length ∧
     (((Query.deleteBulkRecords findOneD purge s₃ data₃).2).errors.getD []).length
       = ((Query.deleteBulkRecords findOneD purge s₃ data₃).2).errored) := by
  have hc := createBulkGo_inv create pkOf data₁ s₁
    { total := data₁.length, processed := 0, created := 0, updated := 0, deleted := 0,
      errored := 0, errors := some [], ids := [] }
  have hu := upsertBulkGo_inv findOne upsertFn idOf data₂ s₂
    { total := data₂.length, processed := 0, created := 0, updated := 0, deleted := 0,
      errored := 0, errors := some [], ids := [] }
  have hd := deleteBulkGo_inv findOneD purge data₃ s₃
    { total := data₃.length, processed := 0, created := 0, updated := 0, deleted := 0,
      errored := 0, errors := none, ids := [] }
  simp only [Query.createBulkRecords, Query.upsertBulkRecords, Query.deleteBulkRecords]
  simp at hc hu hd
  obtain ⟨c1, c2, c3, c4⟩ := hc
  obtain ⟨u1, u2, u3⟩ := hu
  obtain ⟨d1, d2, d3⟩ := hd
  refine ⟨⟨?_, ?_, ?_, ?_⟩, ⟨?_, ?_, ?_⟩, ⟨?_, ?_, ?_⟩⟩ <;> omega

/-- **C3**. A CREATE-mode bulk import over `N` rows of which at least one
fails reports `total = N`, `errored` equal to the number of failing rows
(at least one), `created = N - errored`, and contains every failing row's
error message in the `errors` list. The per-row outcome is the
state-independent oracle `create`. -/
theorem c3_create_bulk_failure_accounting
    (create : ρ → Except String β) (pkOf : β → JsVal) (data : List ρ)
    (h : 0 < (data.filter fun x => !exceptIsOk (create x)).length) :
    ((Query.createBulkRecords (fun s x => (create x).map fun b => (s, b))
        (fun b => .ok (pkOf b)) () data).2).total = data.length ∧
    ((Query.createBulkRecords (fun s x => (create x).map fun b => (s, b))
        (fun b => .ok (pkOf b)) () data).2).errored
      = (data.filter fun x => !exceptIsOk (create x)).length ∧
    1 ≤ ((Query.createBulkRecords (fun s x => (create x).map fun b => (s, b))
        (fun b => .ok (pkOf b)) () data).2).errored ∧
    ((Query.createBulkRecords (fun s x => (create x).map fun b => (s, b))
        (fun b => .ok (pkOf b)) () data).2).created
      = data.length - ((Query.createBulkRecords (fun s x => (create x).map fun b => (s, b))
        (fun b => .ok (pkOf b)) () data).2).errored ∧
    ∀ x ∈ data, ∀ e, create x = .error e →
      e ∈ (((Query.createBulkRecords (fun s x => (create x).map fun b => (s, b))
        (fun b => .ok (pkOf b)) () data).2).errors.getD []) := by
  have hp := createBulkGo_pure create pkOf data
    { total := data.length, processed := 0, created := 0, updated := 0, deleted := 0,
      errored := 0, errors := some [], ids := [] } [] rfl
  have hlen := List.length_eq_length_filter_add (l := data)
    fun x => exceptIsOk (create x)
  simp only [Query.createBulkRecords]
  simp at hp hlen
  obtain ⟨p1, p2, p3, p4, p5⟩ := hp
  refine ⟨p1, ?_, ?_, ?_, ?_⟩
  · omega
  · omega
  · omega
  · intro x hx e he
    rw [p5]
    exact List.mem_filterMap.mpr ⟨x, hx, by simp [exceptErrorMsg?, he]⟩

/-- **C3** witness: two rows of which the first fails; the hypothesis is
discharged by `decide` and the theorem is applied at this concrete input. -/
theorem c3_create_bulk_failure_accounting_witness :
    (0 < (([0, 1] : List Nat).filter fun x =>
        !exceptIsOk (((fun n => if n = 0 then Except.error "boom" else Except.ok n) :
          Nat → Except String Nat) x)).length) ∧
    (((Query.createBulkRecords
        (fun s x => (((fun n => if n = 0 then Except.error "boom" else Except.ok n) :
          Nat → Except String Nat) x).map fun b => (s, b))
        (fun b => .ok (JsVal.num b)) () ([0, 1] : List Nat)).2).total = ([0, 1] : List Nat).length ∧
    ((Query.createBulkRecords
        (fun s x => (((fun n => if n = 0 then Except.error "boom" else Except.ok n) :
          Nat → Except String Nat) x).map fun b => (s, b))
        (fun b => .ok (JsVal.num b)) () ([0, 1] : List Nat)).2).errored
      = (([0, 1] : List Nat).filter fun x =>
        !exceptIsOk (((fun n => if n = 0 then Except.error "boom" else Except.ok n) :
          Nat → Except String Nat) x)).length ∧
    1 ≤ ((Query.createBulkRecords
        (fun s x => (((fun n => if n = 0 then Except.error "boom" else Except.ok n) :
          Nat → Except String Nat) x).map fun b => (s, b))
        (fun b => .ok (JsVal.num b)) () ([0, 1] : List Nat)).2).errored ∧
    ((Query.createBulkRecords
        (fun s x => (((fun n => if n = 0 then Except.error "boom" else Except.ok n) :
          Nat → Except String Nat) x).map fun b => (s, b))
        (fun b => .ok (JsVal.num b)) () ([0, 1] : List Nat)).2).created
      = ([0, 1] : List Nat).length - ((Query.createBulkRecords
        (fun s x => (((fun n => if n = 0 then Except.error "boom" else Except.ok n) :
          Nat → Except String Nat) x).map fun b => (s, b))
        (fun b => .ok (JsVal.num b)) () ([0, 1] : List Nat)).2).errored ∧
    ∀ x ∈ ([0, 1] : List Nat), ∀ e,
      ((fun n => if n = 0 then Except.error "boom" else Except.ok n) :
          Nat → Except String Nat) x = .error e →
      e ∈ (((Query.createBulkRecords
        (fun s x => (((fun n => if n = 0 then Except.error "boom" else Except.ok n) :
          Nat → Except String Nat) x).map fun b => (s, b))
        (fun b => .ok (JsVal.num b)) () ([0, 1] : List Nat)).2).errors.getD [])) :=
  ⟨by decide,
   c3_create_bulk_failure_accounting
     ((fun n => if n = 0 then Except.error "boom" else Except.ok n) : Nat → Except String Nat)
     (fun b => JsVal.num b) ([0, 1] : List Nat) (by decide)⟩

/-- **C4** (counterexample). The claim states that with no `limit`, `offset`
or `order_by` both normalizers sort by the fallback column descending; but
the free `findOptions` of `TypeOrm.ts` defaults the direction to `'ASC'`. -/
theorem c4_free_findOptions_order_cex :
    (TypeOrm.findOptions {} (BuildWhereResult.single []) "created_at").order
      = some ("created_at", "ASC") ∧ ("ASC" : String) ≠ "DESC" :=
  ⟨rfl, by decide⟩

/-- **C4** (amended claim). With no `limit`, `offset` or `order_by`, the
class method `Query.findOptions` returns `take = 20`, `skip = 0` and the
fallback column descending, while the free `findOptions` returns `take = 20`,
`skip = 0` and the default sort column ascending. -/
theorem c4_findOptions_defaults_amended
    (q : FindQueryInput) (hl : q.limit = none) (ho : q.offset = none)
    (hob : q.order_by = none) (w : BuildWhereResult) (fb : String)
    (q2 : FreeQueryInput) (hl2 : q2.limit = none) (ho2 : q2.offset = none)
    (hob2 : q2.order_by = none) (w2 : BuildWhereResult) (ds : String) :
    (Query.findOptions q w (some fb)).take = some 20 ∧
    (Query.findOptions q w (some fb)).skip = some 0 ∧
    (Query.findOptions q w (some fb)).order = some (fb, "DESC") ∧
    (TypeOrm.findOptions q2 w2 ds).take = some 20 ∧
    (TypeOrm.findOptions q2 w2 ds).skip = some 0 ∧
    (TypeOrm.findOptions q2 w2 ds).order = some (ds, "ASC") := by
  simp [Query.findOptions, TypeOrm.findOptions, hl, ho, hob, hl2, ho2, hob2]

/-- **C4** witness: the empty query objects discharge the hypotheses and the
amended theorem is applied at fallback column `price`. -/
theorem c4_findOptions_defaults_amended_witness :
    ({} : FindQueryInput).limit = none ∧ ({} : FindQueryInput).offset = none ∧
    ({} : FindQueryInput).order_by = none ∧
    ({} : FreeQueryInput).limit = none ∧ ({} : FreeQueryInput).offset = none ∧
    ({} : FreeQueryInput).order_by = none ∧
    ((Query.findOptions {} (BuildWhereResult.single []) (some "price")).take = some 20 ∧
     (Query.findOptions {} (BuildWhereResult.single []) (some "price")).skip = some 0 ∧
     (Query.findOptions {} (BuildWhereResult.single []) (some "price")).order
       = some ("price", "DESC") ∧
     (TypeOrm.findOptions {} (BuildWhereResult.single []) "price").take = some 20 ∧
     (TypeOrm.findOptions {} (BuildWhereResult.single []) "price").skip = some 0 ∧
     (TypeOrm.findOptions {} (BuildWhereResult.single []) "price").order
       = some ("price", "ASC")) :=
  ⟨rfl, rfl, rfl, rfl, rfl, rfl,
   c4_findOptions_defaults_amended {} rfl rfl rfl (BuildWhereResult.single []) "price"
     {} rfl rfl rfl (BuildWhereResult.single []) "price"⟩

/-- **C5** (counterexample). The claim states that the literal string
`"undefined"` as the search value contributes no search clause; but the
cleanup of `buildWhere` only matches the one-element array `['undefined']`
(`search.length === 1 && search[0] === 'undefined'` is false for the string,
whose length is 9), so the string produces substring-match clauses. -/
theorem c5_search_undefined_string_cex :
    Query.buildWhere repoEx (some [("search", QueryVal.str "undefined")]) (some ["name"])
      = BuildWhereResult.multi [[("name", WhereVal.op (FindOp.like "%undefined%"))]] ∧
    Query.buildWhere repoEx (some []) (some ["name"]) = BuildWhereResult.single [] ∧
    Query.buildWhere repoEx (some [("search", QueryVal.str "undefined")]) (some ["name"])
      ≠ Query.buildWhere repoEx (some []) (some ["name"]) := by
  refine ⟨rfl, rfl, ?_⟩
  intro h
  rw [show Query.buildWhere repoEx (some [("search", QueryVal.str "undefined")]) (some ["name"])
        = BuildWhereResult.multi [[("name", WhereVal.op (FindOp.like "%undefined%"))]] from rfl,
      show Query.buildWhere repoEx (some []) (some ["name"]) = BuildWhereResult.single [] from rfl]
    at h
  exact BuildWhereResult.noConfusion h

/-- **C5** (amended claim). The defensive cleanup fires only when the search
value is exactly the one-element array `['undefined']`: then the search is
treated as absent and `buildWhere` returns just the accumulated filter
clauses. (A plain string `'undefined'` is not cleaned — see the
counterexample — and the `relations` cleanup never affects the returned
where structure.) -/
theorem c5_search_undefined_array_amended (repo : Repo) (q : List (String × QueryVal))
    (sf : Option (List String)) (hs : q.lookup "search" = some (QueryVal.arr ["undefined"])) :
    Query.buildWhere repo (some q) sf = BuildWhereResult.single (Query.buildWhereBase repo q) := by
  simp [Query.buildWhere, hs, jsLength, jsIdx0]

/-- **C5** witness: a query whose search value is the one-element array
`['undefined']` discharges the hypothesis and the amended theorem applies. -/
theorem c5_search_undefined_array_amended_witness :
    ([("search", QueryVal.arr ["undefined"])].lookup "search"
      = some (QueryVal.arr ["undefined"])) ∧
    Query.buildWhere repoEx (some [("search", QueryVal.arr ["undefined"])]) (some ["name"])
      = BuildWhereResult.single
          (Query.buildWhereBase repoEx [("search", QueryVal.arr ["undefined"])]) :=
  ⟨rfl, c5_search_undefined_array_amended repoEx
    [("search", QueryVal.arr ["undefined"])] (some ["name"]) rfl⟩

/-- **C6**. On a declared column, a value with a recognised
comparison-operator prefix yields the corresponding find operator applied to
the text after the first colon; in particular `{price: "gt:10"}` yields
`MoreThan("10")`; a value in which no operator is recognised is kept
unchanged as an equality literal. -/
theorem c6_operator_prefix_mapping :
    (∀ (repo : Repo) (key v opStr rest : String) (co : ComparisonOperator)
        (sfo : Option (List String)),
        (columnNames repo).contains key = true →
        strContainsChar key '.' = false →
        key ≠ "search" →
        splitStringByFirstColon v = (opStr, some rest) →
        ComparisonOperator.ofKey? (strToUpper opStr) = some co →
        Query.buildWhere repo (some [(key, QueryVal.str v)]) sfo
          = BuildWhereResult.single
              [(key, WhereVal.op
                  (Query.mapComparisonOperatorToTypeORMFindOperators co (JsVal.str rest)))]) ∧
    Query.buildWhere repoEx (some [("price", QueryVal.str "gt:10")]) none
      = BuildWhereResult.single [("price", WhereVal.op (FindOp.moreThan (JsVal.str "10")))] ∧
    (∀ (repo : Repo) (key v : String) (sfo : Option (List String)),
        (columnNames repo).contains key = true →
        strContainsChar key '.' = false →
        key ≠ "search" →
        Query.fieldLookupOps (QueryVal.str v) = [] →
        Query.buildWhere repo (some [(key, QueryVal.str v)]) sfo
          = BuildWhereResult.single [(key, WhereVal.lit (QueryVal.str v))]) := by
  refine ⟨?_, rfl, ?_⟩
  · intro repo key v opStr rest co sfo hcol hdot hks hsplit hop
    have hks2 : ("search" == key) = false := beq_eq_false_iff_ne.mpr fun h => hks h.symm
    have hcolm : key ∈ columnNames repo := by simpa using hcol
    simp [Query.buildWhere, Query.buildWhereBase, Query.buildWhereEntryStep,
      Query.fieldLookupOps, castArray, Query.fieldLookupReduceStep, hsplit, hop, hdot, hcolm,
      objSet, jsValOfLookup, List.lookup, hks2, Option.orElse]
  · intro repo key v sfo hcol hdot hks hops
    have hks2 : ("search" == key) = false := beq_eq_false_iff_ne.mpr fun h => hks h.symm
    have hcolm : key ∈ columnNames repo := by simpa using hcol
    simp [Query.buildWhere, Query.buildWhereBase, Query.buildWhereEntryStep, hops, hdot, hcolm,
      objSet, List.lookup, hks2]

/-- **C6** witness: the recognised prefix `gt:10` on column `price` and the
unrecognised value `foo:bar` instantiate both universal parts. -/
theorem c6_operator_prefix_mapping_witness :
    ((columnNames repoEx).contains "price" = true) ∧
    (strContainsChar "price" '.' = false) ∧
    ("price" : String) ≠ "search" ∧
    (splitStringByFirstColon "gt:10" = ("gt", some "10")) ∧
    (ComparisonOperator.ofKey? (strToUpper "gt") = some ComparisonOperator.GT) ∧
    (Query.fieldLookupOps (QueryVal.str "foo:bar") = []) ∧
    Query.buildWhere repoEx (some [("price", QueryVal.str "gt:10")]) none
      = BuildWhereResult.single
          [("price", WhereVal.op
              (Query.mapComparisonOperatorToTypeORMFindOperators ComparisonOperator.GT
                (JsVal.str "10")))] ∧
    Query.buildWhere repoEx (some [("price", QueryVal.str "foo:bar")]) none
      = BuildWhereResult.single [("price", WhereVal.lit (QueryVal.str "foo:bar"))] :=
  ⟨by decide, by decide, by decide, by decide, by decide, rfl,
   c6_operator_prefix_mapping.1 repoEx "price" "gt:10" "gt" "10" ComparisonOperator.GT none
     (by decide) (by decide) (by decide) (by decide) (by decide),
   c6_operator_prefix_mapping.2.2 repoEx "price" "foo:bar" none
     (by decide) (by decide) (by decide) rfl⟩

/-- **C7**. A dotted filter key `a.b` whose first segment names a declared
relation yields the nested clause `{a: {b: value}}` (for a plain value in
which no operator prefix is recognised); in particular
`{"author.name": "smith"}` yields `{author: {name: "smith"}}`. When the
first segment is not a declared relation the returned where clause is
empty. -/
theorem c7_dotted_relation_keys :
    (∀ (repo : Repo) (key a b v : String) (sfo : Option (List String)),
        splitChar '.' key = [a, b] →
        strContainsChar key '.' = true →
        repo.relations.contains a = true →
        Query.fieldLookupOps (QueryVal.str v) = [] →
        Query.buildWhere repo (some [(key, QueryVal.str v)]) sfo
          = BuildWhereResult.single
              [(a, WhereVal.nested [(b, WhereVal.lit (QueryVal.str v))])]) ∧
    Query.buildWhere repoEx (some [("author.name", QueryVal.str "smith")]) none
      = BuildWhereResult.single
          [("author", WhereVal.nested [("name", WhereVal.lit (QueryVal.str "smith"))])] ∧
    (∀ (repo : Repo) (key a : String) (restSegs : List String) (v : String)
        (sfo : Option (List String)),
        splitChar '.' key = a :: restSegs →
        strContainsChar key '.' = true →
        repo.relations.contains a = false →
        Query.buildWhere repo (some [(key, QueryVal.str v)]) sfo
          = BuildWhereResult.single []) := by
  have hsearch : strContainsChar "search" '.' = false := by decide
  refine ⟨?_, rfl, ?_⟩
  · intro repo key a b v sfo hsplit hdot hrel hops
    have hks : ("search" == key) = false := by
      refine beq_eq_false_iff_ne.mpr fun h => ?_
      rw [← h] at hdot
      exact absurd hdot (by decide)
    have hrelm : a ∈ repo.relations := by simpa using hrel
    simp [Query.buildWhere, Query.buildWhereBase, Query.buildWhereEntryStep, hops, hdot,
      hsplit, hrelm, Query.createWhereRelations, buildNestedWhere, objMerge, objSet,
      List.lookup, hks]
  · intro repo key a restSegs v sfo hsplit hdot hrel
    have hks : ("search" == key) = false := by
      refine beq_eq_false_iff_ne.mpr fun h => ?_
      rw [← h] at hdot
      exact absurd hdot (by decide)
    have hrelm : a ∉ repo.relations := by simpa using hrel
    cases hcol : (columnNames repo).contains a with
    | false =>
      have hcolm : a ∉ columnNames repo := by simpa using hcol
      simp [Query.buildWhere, Query.buildWhereBase, Query.buildWhereEntryStep, hdot,
        hsplit, hrelm, hcolm, List.lookup, hks]
    | true =>
      have hcolm : a ∈ columnNames repo := by simpa using hcol
      simp [Query.buildWhere, Query.buildWhereBase, Query.buildWhereEntryStep, hdot,
        hsplit, hrelm, hcolm, Query.createWhereRelations, objMerge, List.lookup, hks]

/-- **C7** witness: `author.name` with the declared relation `author`, and
`publisher.name` where `publisher` is not declared, instantiate both
universal parts. -/
theorem c7_dotted_relation_keys_witness :
    (splitChar '.' "author.name" = ["author", "name"]) ∧
    (strContainsChar "author.name" '.' = true) ∧
    (repoEx.relations.contains "author" = true) ∧
    (Query.fieldLookupOps (QueryVal.str "smith") = []) ∧
    (splitChar '.' "publisher.name" = ["publisher", "name"]) ∧
    (repoEx.relations.contains "publisher" = false) ∧
    Query.buildWhere repoEx (some [("author.name", QueryVal.str "smith")]) none
      = BuildWhereResult.single
          [("author", WhereVal.nested [("name", WhereVal.lit (QueryVal.str "smith"))])] ∧
    Query.buildWhere repoEx (some [("publisher.name", QueryVal.str "smith")]) none
      = BuildWhereResult.single [] :=
  ⟨by decide, by decide, by decide, rfl, by decide, by decide,
   c7_dotted_relation_keys.1 repoEx "author.name" "author" "name" "smith" none
     (by decide) (by decide) (by decide) rfl,
   c7_dotted_relation_keys.2.2 repoEx "publisher.name" "publisher" ["name"] "smith" none
     (by decide) (by decide) (by decide)⟩

/-- **C8**. When a select list is present, `filterOutInvalidSelectValues`
keeps exactly the entries naming declared columns and leaves every other
option field unchanged; through `findAllOptionsWrapper` (with a where clause
present) the resulting options carry the same filtered select and unchanged
`take`, `skip`, `order` and where. -/
theorem c8_select_filtering (repo : Repo) (o : FindManyOpts) (l : List String)
    (hsel : o.select = some l) (w : BuildWhereResult) (hw : o.whereC = some w) :
    TypeOrm.filterOutInvalidSelectValues repo o
      = { o with select := some (l.filter fun s => (columnNames repo).contains s) } ∧
    ∃ o', TypeOrm.findAllOptionsWrapper repo (some o) = .ok o' ∧
      o'.select = some (l.filter fun s => (columnNames repo).contains s) ∧
      o'.take = o.take ∧ o'.skip = o.skip ∧ o'.order = o.order ∧ o'.whereC = o.whereC := by
  constructor
  · simp [TypeOrm.filterOutInvalidSelectValues, hsel]
  · cases hr : o.relations with
    | some rl =>
      refine ⟨{ o with select := some (l.filter fun s => (columnNames repo).contains s) },
        ?_, by simp, rfl, rfl, rfl, rfl⟩
      simp [TypeOrm.findAllOptionsWrapper, TypeOrm.handleEmptyOptions,
        TypeOrm.handleEmptyWhere, hw, TypeOrm.handleEmptyRelations, hr,
        TypeOrm.filterOutInvalidSelectValues, hsel]
    | none =>
      refine ⟨{ o with relations := some repo.relations,
                       select := some (l.filter fun s => (columnNames repo).contains s) },
        ?_, by simp, rfl, rfl, rfl, rfl⟩
      simp [TypeOrm.findAllOptionsWrapper, TypeOrm.handleEmptyOptions,
        TypeOrm.handleEmptyWhere, hw, TypeOrm.handleEmptyRelations, hr,
        TypeOrm.filterOutInvalidSelectValues, hsel]

/-- **C8** witness: a select list with the unknown entry `bogus` on the
example repository keeps exactly the declared columns `id` and `name`. -/
theorem c8_select_filtering_witness :
    (({ select := some ["id", "bogus", "name"],
        whereC := some (BuildWhereResult.single []) } : FindManyOpts).select
      = some ["id", "bogus", "name"]) ∧
    (({ select := some ["id", "bogus", "name"],
        whereC := some (BuildWhereResult.single []) } : FindManyOpts).whereC
      = some (BuildWhereResult.single [])) ∧
    (TypeOrm.filterOutInvalidSelectValues repoEx
        { select := some ["id", "bogus", "name"],
          whereC := some (BuildWhereResult.single []) }
      = { ({ select := some ["id", "bogus", "name"],
             whereC := some (BuildWhereResult.single []) } : FindManyOpts) with
          select := some (["id", "bogus", "name"].filter
            fun s => (columnNames repoEx).contains s) } ∧
     ∃ o', TypeOrm.findAllOptionsWrapper repoEx
        (some { select := some ["id", "bogus", "name"],
                whereC := some (BuildWhereResult.single []) }) = .ok o' ∧
       o'.select = some (["id", "bogus", "name"].filter
         fun s => (columnNames repoEx).contains s) ∧
       o'.take = ({ select := some ["id", "bogus", "name"],
                    whereC := some (BuildWhereResult.single []) } : FindManyOpts).take ∧
       o'.skip = ({ select := some ["id", "bogus", "name"],
                    whereC := some (BuildWhereResult.single []) } : FindManyOpts).skip ∧
       o'.order = ({ select := some ["id", "bogus", "name"],
                     whereC := some (BuildWhereResult.single []) } : FindManyOpts).order ∧
       o'.whereC = ({ select := some ["id", "bogus", "name"],
                      whereC := some (BuildWhereResult.single []) } : FindManyOpts).whereC) :=
  ⟨rfl, rfl,
   c8_select_filtering repoEx
     { select := some ["id", "bogus", "name"], whereC := some (BuildWhereResult.single []) }
     ["id", "bogus", "name"] rfl (BuildWhereResult.single []) rfl⟩

/-- **C9**. `update` with a payload lacking the primary-key value fails with
the configuration error before any repository write (the state is returned
unchanged), and `bulk` in UPSERT or DELETE mode with no dedup field fails
with `'Dedup field required for update'` before any repository write. -/
theorem c9_config_errors (repo : Repo) (pk : String)
    (hpk : Query.getPrimaryKey repo = .ok pk)
    (data : RecordData) (hmiss : data.lookup pk = none)
    (save : σ → RecordData → Except String (σ × β))
    (findById : σ → JsVal → Except String (Option γ)) (s : σ)
    (create : σ₂ → ρ₂ → Except String (σ₂ × β₂)) (pkOf : β₂ → Except String JsVal)
    (findOne : σ₂ → ρ₂ → Except String (σ₂ × Option γ₂))
    (upsertFn : σ₂ → ρ₂ → Except String (σ₂ × δ₂))
    (idOf : δ₂ → Except String JsVal)
    (purge : σ₂ → γ₂ → Except String σ₂) (copyOp truncOp dropOp : σ₂ → σ₂)
    (data₂ : List ρ₂) (s₂ : σ₂) :
    Query.update save findById repo data s
      = (.error ("Primary key " ++ pk ++ " missing from update to " ++ repo.tableName), s) ∧
    Query.bulk create pkOf findOne upsertFn idOf purge copyOp truncOp dropOp
        ImportMode.UPSERT none data₂ s₂
      = (.error "Dedup field required for update", s₂) ∧
    Query.bulk create pkOf findOne upsertFn idOf purge copyOp truncOp dropOp
        ImportMode.DELETE none data₂ s₂
      = (.error "Dedup field required for update", s₂) := by
  refine ⟨?_, rfl, rfl⟩
  simp [Query.update, hpk, hmiss, jsFalsy]

/-- **C9** witness: the example repository (primary key `id`) with an empty
payload, and empty bulk imports with no dedup field, discharge the
hypotheses. -/
theorem c9_config_errors_witness :
    (Query.getPrimaryKey repoEx = .ok "id") ∧
    (([] : RecordData).lookup "id" = none) ∧
    (Query.update (fun (s : Unit) (_ : RecordData) => Except.ok (s, ()))
        (fun _ _ => Except.ok (none : Option Unit)) repoEx [] ()
      = (.error ("Primary key " ++ "id" ++ " missing from update to " ++ repoEx.tableName), ()) ∧
    Query.bulk (fun (s : Unit) (_ : Unit) => Except.ok (s, ())) (fun _ => Except.ok JsVal.undef)
        (fun s _ => Except.ok (s, (none : Option Unit))) (fun s _ => Except.ok (s, JsVal.undef))
        Except.ok (fun s _ => Except.ok s) id id id ImportMode.UPSERT none [] ()
      = (.error "Dedup field required for update", ()) ∧
    Query.bulk (fun (s : Unit) (_ : Unit) => Except.ok (s, ())) (fun _ => Except.ok JsVal.undef)
        (fun s _ => Except.ok (s, (none : Option Unit))) (fun s _ => Except.ok (s, JsVal.undef))
        Except.ok (fun s _ => Except.ok s) id id id ImportMode.DELETE none [] ()
      = (.error "Dedup field required for update", ())) :=
  ⟨rfl, rfl,
   c9_config_errors repoEx "id" rfl [] rfl
     (fun (s : Unit) (_ : RecordData) => Except.ok (s, ()))
     (fun _ _ => Except.ok (none : Option Unit)) ()
     (fun (s : Unit) (_ : Unit) => Except.ok (s, ())) (fun _ => Except.ok JsVal.undef)
     (fun s _ => Except.ok (s, (none : Option Unit))) (fun s _ => Except.ok (s, JsVal.undef))
     Except.ok (fun s _ => Except.ok s) id id id [] ()⟩

/-- **C10**. With the options omitted, `findAllOptionsWrapper` substitutes
the default options — where clause `primary key > 0`, order `created_at`
descending, relations defaulted to all declared relations — and `findAll`,
`count`, `sum` and `avg` pass exactly these defaults to the repository, so
no empty-where query is issued. -/
theorem c10_default_options (repo : Repo) (pk : String)
    (hpk : TypeOrm.getPrimaryKey repo = .ok pk)
    (find : FindManyOpts → List β) (cnt : FindManyOpts → Nat)
    (sumExec avgExec : Option BuildWhereResult → Int) (metric metric2 : String) :
    TypeOrm.findAllOptionsWrapper repo none
      = .ok { whereC := some (TypeOrm.defaultWhere pk), order := some ("created_at", "DESC"),
              relations := some repo.relations } ∧
    Query.findAll find repo none
      = .ok (find { whereC := some (TypeOrm.defaultWhere pk),
                    order := some ("created_at", "DESC"),
                    relations := some repo.relations }) ∧
    Query.count cnt repo none
      = .ok (cnt { whereC := some (TypeOrm.defaultWhere pk),
                   order := some ("created_at", "DESC"),
                   relations := some repo.relations }) ∧
    Query.sum sumExec repo metric none = .ok (sumExec (some (TypeOrm.defaultWhere pk))) ∧
    Query.avg avgExec repo metric2 none = .ok (avgExec (some (TypeOrm.defaultWhere pk))) ∧
    TypeOrm.defaultWhere pk ≠ BuildWhereResult.single [] := by
  have hwrap : TypeOrm.findAllOptionsWrapper repo none
      = .ok { whereC := some (TypeOrm.defaultWhere pk), order := some ("created_at", "DESC"),
              relations := some repo.relations } := by
    simp [TypeOrm.findAllOptionsWrapper, TypeOrm.handleEmptyOptions, hpk,
      TypeOrm.handleEmptyWhere, TypeOrm.handleEmptyRelations,
      TypeOrm.filterOutInvalidSelectValues]
  refine ⟨hwrap, ?_, ?_, ?_, ?_, ?_⟩
  · simp [Query.findAll, hwrap]
  · simp [Query.count, hwrap]
  · simp [Query.sum, hwrap]
  · simp [Query.avg, hwrap]
  · intro h
    simp [TypeOrm.defaultWhere] at h

/-- **C10** witness: the example repository's primary key is `id` and the
defaults are substituted for a findAll/count/sum/avg call with no options. -/
theorem c10_default_options_witness :
    (TypeOrm.getPrimaryKey repoEx = .ok "id") ∧
    (TypeOrm.findAllOptionsWrapper repoEx none
      = .ok { whereC := some (TypeOrm.defaultWhere "id"),
              order := some ("created_at", "DESC"),
              relations := some repoEx.relations } ∧
     Query.findAll (fun _ => ([] : List Unit)) repoEx none
      = .ok ((fun _ => ([] : List Unit))
          ({ whereC := some (TypeOrm.defaultWhere "id"),
             order := some ("created_at", "DESC"),
             relations := some repoEx.relations } : FindManyOpts)) ∧
     Query.count (fun _ => 0) repoEx none
      = .ok ((fun _ => 0)
          ({ whereC := some (TypeOrm.defaultWhere "id"),
             order := some ("created_at", "DESC"),
             relations := some repoEx.relations } : FindManyOpts)) ∧
     Query.sum (fun _ => 0) repoEx "price" none
      = .ok ((fun _ => (0 : Int)) (some (TypeOrm.defaultWhere "id"))) ∧
     Query.avg (fun _ => 0) repoEx "price" none
      = .ok ((fun _ => (0 : Int)) (some (TypeOrm.defaultWhere "id"))) ∧
     TypeOrm.defaultWhere "id" ≠ BuildWhereResult.single []) :=
  ⟨rfl,
   c10_default_options repoEx "id" rfl (fun _ => ([] : List Unit)) (fun _ => 0)
     (fun _ => 0) (fun _ => 0) "price" "price"⟩

end JL
